import Mathlib

/-!
Shallow embedding of the plugin-hosting core of the `ekki` repository:
`src/plugins/mod.rs` (RendererPlugin: load_plugin, join_thread,
render_is_finished, request_read, poll_read_request,
begin_incremental_render, convert_rgb_data_to_egui_image),
`src/custom_renderer.rs` (ExternalRenderer::update_render_preview) and the
polling slice of `src/ui/windows/render.rs` (RenderWindow::redraw).

Machine integers: the Rust code computes sizes and indices in `u32`
(wrapping in release builds); we model `u32` arithmetic as `Nat` with an
explicit `% 2^32` at each place the source performs a `u32` operation.

Floating point: buffer entries are Rust `f32`.  We model an `f32` value as
either a rational number, NaN, or a signed infinity.  The one arithmetic
operation the host performs on them, multiplication by the literal
`255.999`, is modelled as exact rational multiplication by the rational
value of the `f32` literal `255.999` (which is `16777150 / 65536`); the
claims under study are insensitive to the sub-ulp rounding of the product.
The Rust `as u8` cast from a float saturates (Rust >= 1.45): NaN maps to 0,
values below 0 map to 0, values at or above 256 map to 255, otherwise the
value is truncated toward zero.
-/

/-- Size of the `u32` value space; `u32` arithmetic is `Nat` arithmetic
followed by `% U32`. -/
def U32 : Nat := 2 ^ 32

/-- Model of a Rust `f32` value as stored in the shared buffer. -/
inductive F32 where
  | finite (q : ℚ)
  | nan
  | inf
  | neginf
deriving DecidableEq, Repr

/-- The exact rational value of the `f32` literal `255.999` appearing in
`convert_rgb_data_to_egui_image` (nearest binary32 to 255.999). -/
def scaleFactor : ℚ := 16777150 / 65536

/-- Rust `as u8` cast from an `f32` (saturating semantics, Rust >= 1.45):
NaN to 0, negatives to 0, values at or above 256 to 255, otherwise
truncation toward zero. -/
def f32ToU8 : F32 → Nat
  | .nan => 0
  | .inf => 255
  | .neginf => 0
  | .finite q => if q ≤ 0 then 0 else min 255 (Int.toNat ⌊q⌋)

/-- Multiplication of a buffer value by the scale factor `255.999`
(`value * 255.999` in the source), with the product of finite values
modelled as the exact rational product. -/
def f32MulScale : F32 → F32
  | .finite q => .finite (q * scaleFactor)
  | .nan => .nan
  | .inf => .inf
  | .neginf => .neginf

/-- One channel of `convert_rgb_data_to_egui_image`:
`(value * 255.999) as u8`. -/
def channelToByte (v : F32) : Nat := f32ToU8 (f32MulScale v)

/-- Model of a loadable native library: whether `libloading::Library::new`
succeeds on it, and which of the two entry points it exports. -/
structure Library where
  loads : Bool
  hasBeginIncrementalRender : Bool
  hasUpdateRenderPreview : Bool
deriving DecidableEq, Repr

/-- Result of the worker thread's closure (`anyhow::Result<()>`): `ok` when
the closure returned `Ok(())`; `symbolMissing` when
`lib_thread.get(b"begin_incremental_render\0")` failed and the `?`
operator returned the error. -/
inductive WorkerResult where
  | ok
  | symbolMissing
deriving DecidableEq, Repr

/-- What `JoinHandle::join` on the worker thread would yield: the closure's
result, or `panicked` when the closure unwound / the native call faulted. -/
inductive JoinOutcome where
  | completed (r : WorkerResult)
  | panicked
deriving DecidableEq, Repr

/-- The state of `RendererPlugin` (`src/plugins/mod.rs`).  The
`thread_handle` field holds, when a worker was spawned, the outcome its
join would produce. -/
structure RendererPlugin where
  library : Library
  thread_handle : Option JoinOutcome
  read_request : Bool
  ready_to_read : Bool
  render_width : Nat
  render_height : Nat
  render_rgb_data : List F32
deriving DecidableEq, Repr

/-- Errors surfaced by fallible host-side operations. -/
inductive LoadError where
  | loadFailed
  | symbolMissing
deriving DecidableEq, Repr

/-- `RendererPlugin::load_plugin`: `Library::new(path)?`, then construction
of the session state with no thread handle, both flags false, and the
buffer `vec![1.; (3 * render_width * render_height) as usize]` (the `u32`
product wraps before the cast to `usize`).  No symbol is resolved here. -/
def load_plugin (lib : Library) (render_width render_height : Nat) :
    Except LoadError RendererPlugin :=
  if lib.loads then
    .ok { library := lib
          thread_handle := none
          ready_to_read := false
          read_request := false
          render_width := render_width
          render_height := render_height
          render_rgb_data :=
            List.replicate ((3 * render_width * render_height) % U32) (.finite 1) }
  else
    .error .loadFailed

/-- `RendererPlugin::join_thread`: takes the handle out of the option,
`unwrap`s it (panic, modelled as `none`, when absent) and discards the
join result (`let _ = handle.unwrap().join()`); the caller receives `()`
whatever the worker's outcome was. -/
def join_thread (p : RendererPlugin) : Option (Unit × RendererPlugin) :=
  match p.thread_handle with
  | none => none
  | some _ => some ((), { p with thread_handle := none })

/-- `RendererPlugin::render_is_finished`: `handle.is_finished()` when a
handle is present (the OS-level observation is the `osFinished` oracle),
`false` otherwise. -/
def render_is_finished (p : RendererPlugin) (osFinished : Bool) : Bool :=
  match p.thread_handle with
  | some _ => osFinished
  | none => false

/-- `RendererPlugin::request_read`: writes `true` through the
`read_request` pointer; nothing else changes. -/
def request_read (p : RendererPlugin) : RendererPlugin :=
  { p with read_request := true }

/-- `RendererPlugin::poll_read_request`: if `*ready_to_read` then clear
both flags and return `true`, else return `false` leaving the state
untouched. -/
def poll_read_request (p : RendererPlugin) : Bool × RendererPlugin :=
  if p.ready_to_read then
    (true, { p with read_request := false, ready_to_read := false })
  else
    (false, p)

/-- `RendererPlugin::begin_incremental_render`: spawns the worker thread.
Inside the thread, the symbol `begin_incremental_render` is resolved; when
it is absent the closure returns that error, otherwise the foreign call
runs and its outcome (`pluginRun`, not modelled further) becomes the
thread's outcome.  The host-side state change is exactly storing the
handle. -/
def begin_incremental_render (p : RendererPlugin) (pluginRun : JoinOutcome) :
    RendererPlugin :=
  { p with
      thread_handle :=
        some (if p.library.hasBeginIncrementalRender then pluginRun
              else .completed .symbolMissing) }

/-- An 8-bit RGB color (`egui::Color32::from_rgb`). -/
abbrev Color := Nat × Nat × Nat

/-- The all-white initial pixel `egui::Color32::from_rgb(255, 255, 255)`. -/
def white : Color := (255, 255, 255)

/-- Result of `convert_rgb_data_to_egui_image` (`egui::ColorImage`). -/
structure ColorImage where
  size : Nat × Nat
  pixels : List Color
deriving DecidableEq, Repr

/-- The color computed for pixel `(x, y)`:
`start_idx = (3*x + 3*y*render_width) as u32 as usize`, then three
`self.render_rgb_data.get(..).unwrap()` lookups (a failed lookup panics,
modelled as `none`), each scaled and cast. -/
def pixelColor (p : RendererPlugin) (x y : Nat) : Option Color :=
  let si := (3 * x + 3 * y * p.render_width) % U32
  match p.render_rgb_data.get? si, p.render_rgb_data.get? (si + 1),
      p.render_rgb_data.get? (si + 2) with
  | some r, some g, some b =>
      some (channelToByte r, channelToByte g, channelToByte b)
  | _, _, _ => none

/-- `colors[idx] = color` on a `Vec`: panics (modelled as `none`) when
`idx` is out of bounds. -/
def setAt (l : List Color) (i : Nat) (c : Color) : Option (List Color) :=
  if i < l.length then some (l.set i c) else none

/-- The body of the inner loop of `convert_rgb_data_to_egui_image`:
compute the color for `(x, y)` and store it at
`idx = (x + y*render_width) as u32 as usize`. -/
def convertStep (p : RendererPlugin) (x : Nat) (acc : List Color) (y : Nat) :
    Option (List Color) :=
  match pixelColor p x y with
  | some c => setAt acc ((x + y * p.render_width) % U32) c
  | none => none

/-- The inner loop `for y in 0..self.render_height`. -/
def convertInner (p : RendererPlugin) (acc : List Color) (x : Nat) :
    Option (List Color) :=
  (List.range p.render_height).foldlM (convertStep p x) acc

/-- `RendererPlugin::convert_rgb_data_to_egui_image`: a vector of
`(render_width * render_height) as usize` white pixels, overwritten by the
double loop `for x in 0..width { for y in 0..height { .. } }`; a panic
anywhere (out-of-bounds `get` or index assignment) is modelled as `none`. -/
def convert_rgb_data_to_egui_image (p : RendererPlugin) : Option ColorImage :=
  match (List.range p.render_width).foldlM (convertInner p)
      (List.replicate ((p.render_width * p.render_height) % U32) white) with
  | some pixels => some { size := (p.render_width, p.render_height), pixels := pixels }
  | none => none

/-- A Rust `Vec<f32>` as a triple of pointer identity (elided), length and
capacity; only length and capacity matter to the reclaim claim. -/
structure RustVec where
  len : Nat
  cap : Nat
deriving DecidableEq, Repr

/-- `ExternalRenderer::update_render_preview` on the buffer-ownership
level: the input vector is `mem::forget`ten, the foreign call runs, and
the result is `Vec::from_raw_parts(ptr, (w*h) as usize, (w*h) as usize)`
(the `u32` product wraps).  The reclaimed length and capacity do not
depend on the input vector's. -/
def update_render_preview (image_width image_height : Nat) (_rgb_data : RustVec) :
    RustVec :=
  { len := (image_width * image_height) % U32
    cap := (image_width * image_height) % U32 }

/-- Host-side protocol actions of one `RenderWindow::redraw` pass, in
execution order: clearing the handshake flags (inside
`poll_read_request`), and snapshotting the buffer
(`convert_rgb_data_to_egui_image`). -/
inductive HostEvent where
  | clearFlags
  | snapshot
deriving DecidableEq, Repr

/-- `poll_read_request` instrumented with the protocol events it performs:
identical to `poll_read_request`, plus the trace (`[clearFlags]` exactly
when the flags are cleared). -/
def poll_read_requestEv (p : RendererPlugin) :
    Bool × RendererPlugin × List HostEvent :=
  if p.ready_to_read then
    (true, { p with read_request := false, ready_to_read := false },
     [.clearFlags])
  else
    (false, p, [])

/-- The polling slice of `RenderWindow::redraw` (render.rs lines 169-197,
with `render_in_progress` true): if a preview update was requested, poll;
on a successful poll set `should_transfer_render_data`; if that flag (or
thread completion) holds, convert the buffer to an image and reset the
flag.  Returns the protocol-event trace in execution order, the new
session state, and the new `should_transfer_render_data` flag. -/
def redrawPollSlice (p : RendererPlugin)
    (render_preview_update_requested should_transfer_render_data osFinished :
      Bool) :
    List HostEvent × RendererPlugin × Bool :=
  let (polled, p1, ev1) :=
    if render_preview_update_requested then poll_read_requestEv p
    else (false, p, [])
  let shouldTransfer1 := if polled then true else should_transfer_render_data
  if shouldTransfer1 || render_is_finished p1 osFinished then
    (ev1 ++ [.snapshot], p1, false)
  else
    (ev1, p1, shouldTransfer1)

/-- The results of `n` consecutive `poll_read_request` calls starting from
state `p` (no worker interleaved). -/
def pollTrace (p : RendererPlugin) : Nat → List Bool
  | 0 => []
  | n + 1 =>
      let (b, p1) := poll_read_request p
      b :: pollTrace p1 n

/-- The simulated worker's only host-visible action in the handshake:
writing `true` through the `ready_to_read` pointer. -/
def setReadyToRead (p : RendererPlugin) : RendererPlugin :=
  { p with ready_to_read := true }

/-- A concrete loadable library exporting both entry points. -/
def libFull : Library := ⟨true, true, true⟩

/-- A concrete loadable library that does not export
`begin_incremental_render`. -/
def libNoSymbol : Library := ⟨true, false, true⟩

/-- A concrete idle 2x1 session, exactly the state produced by
`load_plugin libFull 2 1`. -/
def sessionBase : RendererPlugin :=
  { library := libFull
    thread_handle := none
    read_request := false
    ready_to_read := false
    render_width := 2
    render_height := 1
    render_rgb_data := List.replicate 6 (.finite 1) }

/-- `sessionBase` with a worker whose join outcome is a panic. -/
def sessionPanicked : RendererPlugin :=
  { sessionBase with thread_handle := some .panicked }

/-- `sessionBase` with a worker whose closure returned an error. -/
def sessionErr : RendererPlugin :=
  { sessionBase with thread_handle := some (.completed .symbolMissing) }

/-- `sessionBase` with a worker that completed successfully. -/
def sessionOk : RendererPlugin :=
  { sessionBase with thread_handle := some (.completed .ok) }

/-- `sessionOk` after the host requested a read and the worker set
`ready_to_read`. -/
def sessionReady : RendererPlugin :=
  { sessionOk with read_request := true, ready_to_read := true }

/-! ### Arithmetic helpers for the pixel index layout -/

/-- Row-major pixel indices are injective: `x + y*W` with `x < W`
determines `x` and `y`. -/
theorem rowIndex_inj {W x x' y y' : Nat} (hx : x < W) (hx' : x' < W)
    (h : x + y * W = x' + y' * W) : x = x' ∧ y = y' := by
  have hxx : x = x' := by
    have h1 := congrArg (· % W) h
    simpa [Nat.add_mul_mod_self_right, Nat.mod_eq_of_lt hx,
      Nat.mod_eq_of_lt hx'] using h1
  subst hxx
  refine ⟨rfl, ?_⟩
  have hW : 0 < W := lt_of_le_of_lt (Nat.zero_le x) hx
  exact Nat.eq_of_mul_eq_mul_right hW (Nat.add_left_cancel h)

/-- The pixel index `x + y*W` is in bounds for a `W*H` vector. -/
theorem rowIndex_lt {W H x y : Nat} (hx : x < W) (hy : y < H) :
    x + y * W < W * H := by
  calc x + y * W < W + y * W := by omega
    _ = (y + 1) * W := by ring
    _ ≤ H * W := Nat.mul_le_mul_right W hy
    _ = W * H := Nat.mul_comm H W

/-- The last buffer index read for pixel `(x, y)` is in bounds for a
`3*W*H` buffer. -/
theorem bufIndex_lt {W H x y : Nat} (hx : x < W) (hy : y < H) :
    3 * x + 3 * y * W + 2 < 3 * W * H := by
  have h := rowIndex_lt hx hy
  nlinarith

/-- Under the no-overflow bound, `W*H` itself is below `U32`. -/
theorem whLtU32 {W H : Nat} (hov : 3 * W * H < U32) : W * H < U32 := by
  have h1 : W * H ≤ 3 * W * H := by nlinarith
  omega

/-- Under the no-overflow bound, the `u32` pixel-index arithmetic does not
wrap. -/
theorem idxModEq {W H x y : Nat} (hx : x < W) (hy : y < H)
    (hov : 3 * W * H < U32) : (x + y * W) % U32 = x + y * W :=
  Nat.mod_eq_of_lt (lt_trans (rowIndex_lt hx hy) (whLtU32 hov))

/-- Under the no-overflow bound, the `u32` buffer-index arithmetic does
not wrap. -/
theorem bufModEq {W H x y : Nat} (hx : x < W) (hy : y < H)
    (hov : 3 * W * H < U32) : (3 * x + 3 * y * W) % U32 = 3 * x + 3 * y * W := by
  have h := bufIndex_lt hx hy (H := H)
  exact Nat.mod_eq_of_lt (by omega)

/-! ### Characterization of the conversion double loop -/

/-- Effect of the inner loop of `convert_rgb_data_to_egui_image` over
`y = 0, .., m-1` at column `x`: every step succeeds, the pixel slots
`x + y*W` receive their colors, and every other slot is untouched. -/
theorem convertInner_spec (p : RendererPlugin) (x : Nat)
    (hx : x < p.render_width)
    (hov : 3 * p.render_width * p.render_height < U32) :
    ∀ (m : Nat), m ≤ p.render_height →
    ∀ (acc : List Color), acc.length = p.render_width * p.render_height →
    (∀ y, y < m → (pixelColor p x y).isSome = true) →
    ∃ res, (List.range m).foldlM (convertStep p x) acc = some res ∧
      res.length = p.render_width * p.render_height ∧
      (∀ y, y < m → res.get? (x + y * p.render_width) = pixelColor p x y) ∧
      (∀ j : Nat, (∀ y, y < m → j ≠ x + y * p.render_width) →
        res.get? j = acc.get? j) := by
  intro m
  induction m with
  | zero =>
      intro _ acc hacc _
      exact ⟨acc, by simp, hacc, fun y hy => absurd hy (Nat.not_lt_zero y),
        fun j _ => rfl⟩
  | succ m ih =>
      intro hm acc hacc hsome
      obtain ⟨res, hfold, hlen, hget, hunch⟩ :=
        ih (Nat.le_of_succ_le hm) acc hacc
          (fun y hy => hsome y (Nat.lt_succ_of_lt hy))
      obtain ⟨c, hc⟩ := Option.isSome_iff_exists.mp (hsome m (Nat.lt_succ_self m))
      have hmH : m < p.render_height := Nat.lt_of_succ_le hm
      have hidx : x + m * p.render_width < p.render_width * p.render_height :=
        rowIndex_lt hx hmH
      have hmod : (x + m * p.render_width) % U32 = x + m * p.render_width :=
        idxModEq hx hmH hov
      have hidx' : x + m * p.render_width < res.length := by rw [hlen]; exact hidx
      refine ⟨res.set (x + m * p.render_width) c, ?_, by simp [hlen], ?_, ?_⟩
      · rw [List.range_succ, List.foldlM_append, hfold]
        simp [List.foldlM, convertStep, hc, setAt, hmod, hidx']
      · intro y hy
        rcases Nat.lt_succ_iff_lt_or_eq.mp hy with hy' | rfl
        · rw [List.get?_set_ne, hget y hy']
          intro heq
          exact absurd (rowIndex_inj hx hx heq).2 (Nat.ne_of_gt hy')
        · rw [List.get?_set_eq_of_lt _ hidx', hc]
      · intro j hj
        rw [List.get?_set_ne, hunch j (fun y hy => hj y (Nat.lt_succ_of_lt hy))]
        exact fun heq => (hj m (Nat.lt_succ_self m)) heq.symm

/-- Effect of the outer loop of `convert_rgb_data_to_egui_image` over
`x = 0, .., m-1`: every inner pass succeeds, every pixel slot `x + y*W`
with `x < m` receives its color, and every other slot is untouched. -/
theorem convertOuter_spec (p : RendererPlugin)
    (hov : 3 * p.render_width * p.render_height < U32) :
    ∀ (m : Nat), m ≤ p.render_width →
    ∀ (acc : List Color), acc.length = p.render_width * p.render_height →
    (∀ x y, x < m → y < p.render_height → (pixelColor p x y).isSome = true) →
    ∃ res, (List.range m).foldlM (convertInner p) acc = some res ∧
      res.length = p.render_width * p.render_height ∧
      (∀ x y, x < m → y < p.render_height →
        res.get? (x + y * p.render_width) = pixelColor p x y) ∧
      (∀ j : Nat,
        (∀ x y, x < m → y < p.render_height → j ≠ x + y * p.render_width) →
        res.get? j = acc.get? j) := by
  intro m
  induction m with
  | zero =>
      intro _ acc hacc _
      exact ⟨acc, by simp, hacc, fun x y hx => absurd hx (Nat.not_lt_zero x),
        fun j _ => rfl⟩
  | succ m ih =>
      intro hm acc hacc hsome
      obtain ⟨res1, hfold1, hlen1, hget1, hunch1⟩ :=
        ih (Nat.le_of_succ_le hm) acc hacc
          (fun x y hx hy => hsome x y (Nat.lt_succ_of_lt hx) hy)
      have hmW : m < p.render_width := Nat.lt_of_succ_le hm
      obtain ⟨res2, hfold2, hlen2, hget2, hunch2⟩ :=
        convertInner_spec p m hmW hov p.render_height (le_refl _) res1 hlen1
          (fun y hy => hsome m y (Nat.lt_succ_self m) hy)
      refine ⟨res2, ?_, hlen2, ?_, ?_⟩
      · rw [List.range_succ, List.foldlM_append, hfold1]
        simp [List.foldlM, convertInner]
        exact hfold2
      · intro x y hx hy
        rcases Nat.lt_succ_iff_lt_or_eq.mp hx with hx' | rfl
        · have hne : ∀ y', y' < p.render_height →
              x + y * p.render_width ≠ m + y' * p.render_width := by
            intro y' hy' heq
            have hxW : x < p.render_width := Nat.lt_trans hx' hmW
            exact absurd (rowIndex_inj hxW hmW heq).1 (Nat.ne_of_lt hx')
          rw [hunch2 _ hne, hget1 x y hx' hy]
        · exact hget2 y hy
      · intro j hj
        rw [hunch2 j (fun y hy => hj m y (Nat.lt_succ_self m) hy),
          hunch1 j (fun x y hx hy => hj x y (Nat.lt_succ_of_lt hx) hy)]

/-- For a session whose buffer has the exact `3*W*H` length, the three
lookups for pixel `(x, y)` land at `3x+3yW`, `3x+3yW+1`, `3x+3yW+2` and
all succeed. -/
theorem pixelColor_eq (p : RendererPlugin) {x y : Nat}
    (hx : x < p.render_width) (hy : y < p.render_height)
    (hlen : p.render_rgb_data.length = 3 * p.render_width * p.render_height)
    (hov : 3 * p.render_width * p.render_height < U32) :
    ∃ r g b,
      p.render_rgb_data.get? (3 * x + 3 * y * p.render_width) = some r ∧
      p.render_rgb_data.get? (3 * x + 3 * y * p.render_width + 1) = some g ∧
      p.render_rgb_data.get? (3 * x + 3 * y * p.render_width + 2) = some b ∧
      pixelColor p x y =
        some (channelToByte r, channelToByte g, channelToByte b) := by
  have hb := bufIndex_lt hx hy
  have h0 : 3 * x + 3 * y * p.render_width < p.render_rgb_data.length := by
    omega
  have h1 : 3 * x + 3 * y * p.render_width + 1 < p.render_rgb_data.length := by
    omega
  have h2 : 3 * x + 3 * y * p.render_width + 2 < p.render_rgb_data.length := by
    omega
  refine ⟨p.render_rgb_data.get ⟨_, h0⟩, p.render_rgb_data.get ⟨_, h1⟩,
    p.render_rgb_data.get ⟨_, h2⟩, List.get?_eq_get h0, List.get?_eq_get h1,
    List.get?_eq_get h2, ?_⟩
  simp only [pixelColor, bufModEq hx hy hov, List.get?_eq_get h0,
    List.get?_eq_get h1, List.get?_eq_get h2]

/-- Whole-conversion characterization: with a well-formed buffer, the
conversion panics nowhere and pixel slot `x + y*W` of the produced image
holds the color computed for `(x, y)`. -/
theorem convert_spec (p : RendererPlugin)
    (hlen : p.render_rgb_data.length = 3 * p.render_width * p.render_height)
    (hov : 3 * p.render_width * p.render_height < U32) :
    ∃ img, convert_rgb_data_to_egui_image p = some img ∧
      img.size = (p.render_width, p.render_height) ∧
      img.pixels.length = p.render_width * p.render_height ∧
      ∀ x y, x < p.render_width → y < p.render_height →
        img.pixels.get? (x + y * p.render_width) = pixelColor p x y := by
  have hsome : ∀ x y, x < p.render_width → y < p.render_height →
      (pixelColor p x y).isSome = true := by
    intro x y hx hy
    obtain ⟨r, g, b, -, -, -, hpc⟩ := pixelColor_eq p hx hy hlen hov
    simp [hpc]
  have hinit :
      (List.replicate ((p.render_width * p.render_height) % U32) white).length
        = p.render_width * p.render_height := by
    simp [Nat.mod_eq_of_lt (whLtU32 hov)]
  obtain ⟨res, hfold, hlen', hget, -⟩ :=
    convertOuter_spec p hov p.render_width (le_refl _) _ hinit hsome
  refine ⟨⟨(p.render_width, p.render_height), res⟩, ?_, rfl, hlen', hget⟩
  simp [convert_rgb_data_to_egui_image, hfold]

/-- With a well-formed buffer the conversion panics nowhere. -/
theorem convert_isSome (p : RendererPlugin)
    (hlen : p.render_rgb_data.length = 3 * p.render_width * p.render_height)
    (hov : 3 * p.render_width * p.render_height < U32) :
    (convert_rgb_data_to_egui_image p).isSome = true := by
  obtain ⟨img, hcv, -, -, -⟩ := convert_spec p hlen hov
  simp [hcv]

/-- The channel conversion of the sentinel value 1.0 is 255. -/
theorem channelToByte_one : channelToByte (.finite 1) = 255 := by
  norm_num [channelToByte, f32MulScale, f32ToU8, scaleFactor]

/-- From a state whose `ready_to_read` is false, every poll observes
false and leaves the state fixed. -/
theorem pollTrace_notReady (p : RendererPlugin)
    (h : p.ready_to_read = false) : ∀ n, pollTrace p n = List.replicate n false := by
  intro n
  induction n with
  | zero => rfl
  | succ n ih => simp [pollTrace, poll_read_request, h, ih, List.replicate_succ]

/-! ### Claims -/

/-- C1: the polling protocol of `RenderWindow::redraw` performs
clear-then-snapshot, not snapshot-then-clear: whenever a requested poll
observes `ready_to_read`, the handshake flags are cleared inside
`poll_read_request` and the buffer snapshot
(`convert_rgb_data_to_egui_image`) happens strictly afterwards.  This
refutes the claimed snapshot-then-clear order (the code contradicts its
own doc comment, which says the flags are cleared when the program is done
reading). -/
theorem redraw_clears_before_snapshot (p : RendererPlugin)
    (shouldTransfer osFin : Bool) (h : p.ready_to_read = true) :
    (redrawPollSlice p true shouldTransfer osFin).1
      = [HostEvent.clearFlags, HostEvent.snapshot] := by
  simp [redrawPollSlice, poll_read_requestEv, h]

/-- C1 witness: the clear-then-snapshot trace on a concrete ready
session. -/
theorem redraw_clears_before_snapshot_witness :
    (redrawPollSlice sessionReady true false false).1
      = [HostEvent.clearFlags, HostEvent.snapshot] :=
  redraw_clears_before_snapshot sessionReady false false rfl

/-- C2: `poll_read_request` returns true exactly when `ready_to_read` is
true; in that case it clears both flags and changes nothing else; when
`ready_to_read` is false it returns false and leaves the session
untouched.  After a simulated worker sets `ready_to_read`, exactly one of
any number of subsequent polls observes true (the first), and immediately
after that call both flags read false. -/
theorem poll_read_request_correct :
    (∀ p : RendererPlugin, (poll_read_request p).1 = p.ready_to_read)
    ∧ (∀ p : RendererPlugin, p.ready_to_read = true →
        poll_read_request p =
          (true, { p with read_request := false, ready_to_read := false }))
    ∧ (∀ p : RendererPlugin, p.ready_to_read = false →
        poll_read_request p = (false, p))
    ∧ (∀ (p : RendererPlugin) (n : Nat),
        pollTrace (setReadyToRead p) (n + 1) = true :: List.replicate n false
        ∧ (pollTrace (setReadyToRead p) (n + 1)).count true = 1
        ∧ (poll_read_request (setReadyToRead p)).2.read_request = false
        ∧ (poll_read_request (setReadyToRead p)).2.ready_to_read = false) := by
  refine ⟨?_, ?_, ?_, ?_⟩
  · intro p
    by_cases h : p.ready_to_read <;> simp [poll_read_request, h]
  · intro p h
    simp [poll_read_request, h]
  · intro p h
    simp [poll_read_request, h]
  · intro p n
    have hstep : poll_read_request (setReadyToRead p)
        = (true, { p with read_request := false, ready_to_read := false }) := by
      simp [poll_read_request, setReadyToRead]
    have htail := pollTrace_notReady
      { p with read_request := false, ready_to_read := false } rfl n
    refine ⟨?_, ?_, by simp [hstep], by simp [hstep]⟩
    · simp [pollTrace, hstep, htail]
    · simp [pollTrace, hstep, htail, List.count_replicate]

/-- C2 witness: the handshake on concrete sessions - one poll on a ready
session observes true and clears both flags, a poll on an idle session
observes false and changes nothing, and three polls after a simulated
worker signal read `[true, false, false]`. -/
theorem poll_read_request_correct_witness :
    poll_read_request sessionReady =
      (true, { sessionReady with read_request := false, ready_to_read := false })
    ∧ poll_read_request sessionBase = (false, sessionBase)
    ∧ pollTrace (setReadyToRead sessionOk) 3 = [true, false, false] := by
  refine ⟨poll_read_request_correct.2.1 sessionReady rfl,
    poll_read_request_correct.2.2.1 sessionBase rfl, ?_⟩
  have h := (poll_read_request_correct.2.2.2 sessionOk 2).1
  simpa using h

/-- C3 counterexample: joining a session whose worker panicked yields to
the caller exactly the same observable result (unit, handle cleared, no
error) as joining one whose worker failed with an error or succeeded -
the failure is silently discarded, never surfaced as an error. -/
theorem join_thread_swallows_failure :
    join_thread sessionPanicked = some ((), sessionBase)
    ∧ join_thread sessionErr = some ((), sessionBase)
    ∧ join_thread sessionOk = some ((), sessionBase) :=
  ⟨rfl, rfl, rfl⟩

/-- C3 amended: `join_thread` on any session with a live handle returns
`()` and merely clears the handle; the result is independent of the
worker's outcome, so a panic or error result of the worker is discarded
(`let _ = handle.unwrap().join()`), not surfaced to the caller. -/
theorem join_thread_discards_outcome (p : RendererPlugin) (o : JoinOutcome)
    (h : p.thread_handle = some o) :
    join_thread p = some ((), { p with thread_handle := none }) := by
  simp [join_thread, h]

/-- C3 amended witness: the discarding join on the concrete panicked
session. -/
theorem join_thread_discards_outcome_witness :
    join_thread sessionPanicked
      = some ((), { sessionPanicked with thread_handle := none }) :=
  join_thread_discards_outcome sessionPanicked .panicked rfl

/-- C4 counterexample: loading a library that lacks the
`begin_incremental_render` entry point does not return `SymbolMissing` -
`load_plugin` succeeds, because it resolves no symbol at load time. -/
theorem load_plugin_skips_symbol_check :
    libNoSymbol.hasBeginIncrementalRender = false
    ∧ load_plugin libNoSymbol 2 2 ≠ .error .symbolMissing
    ∧ ∃ s, load_plugin libNoSymbol 2 2 = .ok s := by
  refine ⟨rfl, ?_, ⟨_, rfl⟩⟩
  simp [load_plugin, libNoSymbol]

/-- C4 amended: `load_plugin` resolves no entry point, so it succeeds on
any loadable library whether or not `begin_incremental_render` is
exported; the missing entry point is detected only inside the worker
thread spawned by `begin_incremental_render`, as that thread's error
result (which only the join handle can observe). -/
theorem symbol_missing_surfaces_in_worker (lib : Library) (w h : Nat)
    (run : JoinOutcome) (hl : lib.loads = true)
    (hs : lib.hasBeginIncrementalRender = false) :
    (∃ s, load_plugin lib w h = .ok s)
    ∧ (load_plugin lib w h).map
        (fun s => (begin_incremental_render s run).thread_handle)
      = .ok (some (.completed .symbolMissing)) := by
  constructor
  · exact ⟨{ library := lib, thread_handle := none, read_request := false,
             ready_to_read := false, render_width := w, render_height := h,
             render_rgb_data :=
               List.replicate ((3 * w * h) % U32) (.finite 1) },
      by simp [load_plugin, hl]⟩
  · simp [load_plugin, hl, Except.map, begin_incremental_render, hs]

/-- C4 amended witness: the lazy symbol detection on the concrete
symbol-less library at size 2x2. -/
theorem symbol_missing_surfaces_in_worker_witness :
    (∃ s, load_plugin libNoSymbol 2 2 = .ok s)
    ∧ (load_plugin libNoSymbol 2 2).map
        (fun s => (begin_incremental_render s .panicked).thread_handle)
      = .ok (some (.completed .symbolMissing)) :=
  symbol_missing_surfaces_in_worker libNoSymbol 2 2 .panicked rfl rfl

/-- C5: at width 5 and height 7 the host provides an allocation of
capacity 105 = 3*5*7 (as the function's own doc comment requires), but
`update_render_preview` reclaims the returned pointer with length and
capacity 35 = 5*7 - a third of the allocation length the host originally
provided, contradicting the claimed identical-size reclaim. -/
theorem update_render_preview_shrinks_allocation :
    update_render_preview 5 7 ⟨105, 105⟩ = ⟨35, 35⟩ ∧ (35 : Nat) ≠ 105 :=
  ⟨rfl, by decide⟩

/-- C6 counterexample: at width = height = 65536 (both positive) the
`u32` product `3*width*height` wraps to 0, so the session buffer is
allocated with length 0, not `3*width*height`. -/
theorem load_plugin_size_overflows :
    (load_plugin libFull 65536 65536).map (fun s => s.render_rgb_data.length)
      = .ok 0
    ∧ (0 : Nat) ≠ 3 * 65536 * 65536 := by
  constructor
  · have h : (3 * 65536 * 65536) % U32 = 0 := by decide
    simp [load_plugin, libFull, Except.map, h]
  · decide

/-- C6 amended: for all width, height > 0 such that `3*width*height`
fits in a `u32` (no wrap): the session buffer allocated by `load_plugin`
has length exactly `3*width*height`, every entry is the all-white
sentinel 1.0, both handshake flags start false, and the presenter's
conversion performs only in-bounds lookups - it panics nowhere and
produces an image. -/
theorem load_plugin_session_invariants (lib : Library) (w h : Nat)
    (hl : lib.loads = true) (hw : 0 < w) (hh : 0 < h)
    (hov : 3 * w * h < U32) :
    ∃ s, load_plugin lib w h = .ok s
      ∧ s.render_rgb_data.length = 3 * w * h
      ∧ (∀ v ∈ s.render_rgb_data, v = F32.finite 1)
      ∧ s.read_request = false
      ∧ s.ready_to_read = false
      ∧ (convert_rgb_data_to_egui_image s).isSome = true := by
  have hmod : (3 * w * h) % U32 = 3 * w * h := Nat.mod_eq_of_lt hov
  refine ⟨⟨lib, none, false, false, w, h,
      List.replicate ((3 * w * h) % U32) (.finite 1)⟩, ?_, ?_, ?_, rfl, rfl, ?_⟩
  · simp [load_plugin, hl]
  · simp [hmod]
  · intro v hv
    exact List.eq_of_mem_replicate hv
  · exact convert_isSome _ (by simp [hmod]) (by simpa using hov)

/-- C6 amended witness: the session invariants at the concrete size 2x1
with the concrete full library. -/
theorem load_plugin_session_invariants_witness :
    ∃ s, load_plugin libFull 2 1 = .ok s
      ∧ s.render_rgb_data.length = 3 * 2 * 1
      ∧ (∀ v ∈ s.render_rgb_data, v = F32.finite 1)
      ∧ s.read_request = false
      ∧ s.ready_to_read = false
      ∧ (convert_rgb_data_to_egui_image s).isSome = true :=
  load_plugin_session_invariants libFull 2 1 rfl (by decide) (by decide)
    (by decide)

/-- C7: for a session with a well-formed buffer (length exactly
`3*width*height`, sizes within `u32` so the index arithmetic does not
wrap), the conversion succeeds and pixel `(x, y)` of the display image
(at row-major position `x + y*width`) is computed from buffer indices
`3x+3yw`, `3x+3yw+1`, `3x+3yw+2`, each channel being the float scaled by
255.999 and truncated to 8 bits; in particular for the buffer filled
entirely with the constant 1.0, every channel of every pixel is 255. -/
theorem convert_layout_and_round_trip (p : RendererPlugin)
    (hlen : p.render_rgb_data.length = 3 * p.render_width * p.render_height)
    (hov : 3 * p.render_width * p.render_height < U32) :
    ∃ img, convert_rgb_data_to_egui_image p = some img
      ∧ img.size = (p.render_width, p.render_height)
      ∧ img.pixels.length = p.render_width * p.render_height
      ∧ (∀ x y, x < p.render_width → y < p.render_height →
          ∃ r g b,
            p.render_rgb_data.get? (3 * x + 3 * y * p.render_width) = some r
            ∧ p.render_rgb_data.get? (3 * x + 3 * y * p.render_width + 1)
                = some g
            ∧ p.render_rgb_data.get? (3 * x + 3 * y * p.render_width + 2)
                = some b
            ∧ img.pixels.get? (x + y * p.render_width)
                = some (channelToByte r, channelToByte g, channelToByte b))
      ∧ (p.render_rgb_data =
            List.replicate (3 * p.render_width * p.render_height)
              (F32.finite 1) →
          ∀ i, i < p.render_width * p.render_height →
            img.pixels.get? i = some (255, 255, 255)) := by
  obtain ⟨img, hcv, hsz, hplen, hget⟩ := convert_spec p hlen hov
  have hmap : ∀ x y, x < p.render_width → y < p.render_height →
      ∃ r g b,
        p.render_rgb_data.get? (3 * x + 3 * y * p.render_width) = some r
        ∧ p.render_rgb_data.get? (3 * x + 3 * y * p.render_width + 1) = some g
        ∧ p.render_rgb_data.get? (3 * x + 3 * y * p.render_width + 2) = some b
        ∧ img.pixels.get? (x + y * p.render_width)
            = some (channelToByte r, channelToByte g, channelToByte b) := by
    intro x y hx hy
    obtain ⟨r, g, b, h1, h2, h3, hpc⟩ := pixelColor_eq p hx hy hlen hov
    exact ⟨r, g, b, h1, h2, h3, by rw [hget x y hx hy, hpc]⟩
  refine ⟨img, hcv, hsz, hplen, hmap, ?_⟩
  intro hones i hi
  have hW : 0 < p.render_width := by
    rcases Nat.eq_zero_or_pos p.render_width with h0 | h0
    · rw [h0] at hi; omega
    · exact h0
  have hx : i % p.render_width < p.render_width := Nat.mod_lt _ hW
  have hy : i / p.render_width < p.render_height := by
    rw [Nat.div_lt_iff_lt_mul hW]
    calc i < p.render_width * p.render_height := hi
      _ = p.render_height * p.render_width := Nat.mul_comm _ _
  obtain ⟨r, g, b, h1, h2, h3, hpx⟩ := hmap _ _ hx hy
  have heq : i % p.render_width + i / p.render_width * p.render_width = i :=
    Nat.mod_add_div' i p.render_width
  rw [heq] at hpx
  have hr : r = F32.finite 1 :=
    List.eq_of_mem_replicate (hones ▸ List.get?_mem h1)
  have hg : g = F32.finite 1 :=
    List.eq_of_mem_replicate (hones ▸ List.get?_mem h2)
  have hb : b = F32.finite 1 :=
    List.eq_of_mem_replicate (hones ▸ List.get?_mem h3)
  rw [hpx, hr, hg, hb, channelToByte_one]

/-- C7 witness: the round trip at the concrete all-ones 2x1 session. -/
theorem convert_layout_and_round_trip_witness :
    ∃ img, convert_rgb_data_to_egui_image sessionBase = some img
      ∧ img.size = (sessionBase.render_width, sessionBase.render_height)
      ∧ img.pixels.length = sessionBase.render_width * sessionBase.render_height
      ∧ (∀ x y, x < sessionBase.render_width → y < sessionBase.render_height →
          ∃ r g b,
            sessionBase.render_rgb_data.get?
                (3 * x + 3 * y * sessionBase.render_width) = some r
            ∧ sessionBase.render_rgb_data.get?
                (3 * x + 3 * y * sessionBase.render_width + 1) = some g
            ∧ sessionBase.render_rgb_data.get?
                (3 * x + 3 * y * sessionBase.render_width + 2) = some b
            ∧ img.pixels.get? (x + y * sessionBase.render_width)
                = some (channelToByte r, channelToByte g, channelToByte b))
      ∧ (sessionBase.render_rgb_data =
            List.replicate
              (3 * sessionBase.render_width * sessionBase.render_height)
              (F32.finite 1) →
          ∀ i, i < sessionBase.render_width * sessionBase.render_height →
            img.pixels.get? i = some (255, 255, 255)) :=
  convert_layout_and_round_trip sessionBase (by decide) (by decide)

/-- C8: `request_read` only sets `read_request` to true and changes no
other session state, and calling it twice before it is serviced leaves
the session in exactly the same state as calling it once. -/
theorem request_read_idempotent :
    (∀ p : RendererPlugin, request_read p = { p with read_request := true })
    ∧ ∀ p : RendererPlugin, request_read (request_read p) = request_read p :=
  ⟨fun _ => rfl, fun _ => rfl⟩

/-- C9: the float-to-byte channel conversion saturates rather than wraps:
a value whose scaled product reaches 256 yields channel 255, a negative
value yields 0, and NaN yields 0 - no modular wraparound occurs for
out-of-range plugin output. -/
theorem channelToByte_saturates :
    (∀ q : ℚ, (256 : ℚ) ≤ q * scaleFactor → channelToByte (.finite q) = 255)
    ∧ (∀ q : ℚ, q < 0 → channelToByte (.finite q) = 0)
    ∧ channelToByte .nan = 0 := by
  refine ⟨?_, ?_, rfl⟩
  · intro q hq
    have hpos : (0 : ℚ) < q * scaleFactor := lt_of_lt_of_le (by norm_num) hq
    have hfl : (256 : ℤ) ≤ ⌊q * scaleFactor⌋ := by
      rw [Int.le_floor]; exact_mod_cast hq
    have h255 : (255 : ℕ) ≤ (⌊q * scaleFactor⌋).toNat := by omega
    simp [channelToByte, f32MulScale, f32ToU8, not_le.mpr hpos,
      Nat.min_eq_left h255]
  · intro q hq
    have hneg : q * scaleFactor < 0 :=
      mul_neg_of_neg_of_pos hq (by norm_num [scaleFactor])
    simp [channelToByte, f32MulScale, f32ToU8, le_of_lt hneg]

/-- C9 witness: saturation at the concrete values 2.0 (scaled product
above 256), -1.0 and NaN. -/
theorem channelToByte_saturates_witness :
    channelToByte (.finite 2) = 255
    ∧ channelToByte (.finite (-1)) = 0
    ∧ channelToByte .nan = 0 :=
  ⟨channelToByte_saturates.1 2 (by norm_num [scaleFactor]),
    channelToByte_saturates.2.1 (-1) (by norm_num),
    channelToByte_saturates.2.2⟩

/-- C10: `join_thread` is partial: on a session with no worker handle -
before any `begin_incremental_render`, or again right after a successful
`join_thread` consumed the handle - it unwraps `None` and panics
(modelled as `none`); it is neither idempotent nor a no-op there. -/
theorem join_thread_requires_handle :
    (∀ p : RendererPlugin, p.thread_handle = none → join_thread p = none)
    ∧ (∀ (p : RendererPlugin) (q : Unit × RendererPlugin),
        join_thread p = some q → join_thread q.2 = none) := by
  constructor
  · intro p h
    simp [join_thread, h]
  · intro p q h
    cases hp : p.thread_handle with
    | none => simp [join_thread, hp] at h
    | some o =>
        simp [join_thread, hp] at h
        rw [← h]
        simp [join_thread]

/-- C10 witness: joining the concrete idle session panics, and joining
again right after a successful join panics. -/
theorem join_thread_requires_handle_witness :
    join_thread sessionBase = none
    ∧ join_thread (((), sessionBase) : Unit × RendererPlugin).2 = none :=
  ⟨join_thread_requires_handle.1 sessionBase rfl,
    join_thread_requires_handle.2 sessionOk ((), sessionBase) rfl⟩
